import Mathlib

/-!
Verification of the specification of `gameOfLife.c` (Dufaer/game-of-life-in-c)
against a shallow embedding of the source.

Embedding conventions:
* C `char` / `long long` values are modelled as `Int`; a cast to `char`
  wraps into `[-128, 128)` (signed char, as on the gcc/Linux target named
  in the source header).
* `sizeof( char )` is `1` by the C standard; the source divides Y
  coordinates by `sizeof( char )` (not `CHAR_BIT`), so every cell lands at
  word index `y` with bit offset `0`: one cell per storage byte.
* The 2-dimensional `char` array `origin` is modelled as a total function
  `Int → Int → Int`; all accesses the source performs are guarded to be
  inside the allocated `arraySizeX × arraySizeY` rectangle, so the
  function model is faithful on every access the source makes.
* Undefined behavior (division by zero in `lldiv`, and the infinite
  recursion `selsectCell` falls into when the torus reduction cannot make
  the coordinate in-bounds) is modelled as `Option.none`.
* Allocation failure of `malloc`/`calloc` is environment nondeterminism;
  the embedding models the successful-allocation path (failure paths only
  free memory and return NULL, and no claim is about them).
-/

namespace GOL

/-- C source: `#define GOL__CELL_STATE__OFF 0`. -/
def GOL__CELL_STATE__OFF : Int := 0

/-- C source: `#define GOL__CELL_STATE__ON 1`. -/
def GOL__CELL_STATE__ON : Int := 1

/-- C source: `#define GOL__CELL_STATE__INVALID 2`. -/
def GOL__CELL_STATE__INVALID : Int := 2

/-- C source: `#define GOL__OOBR__ALL_OFF 0`. -/
def GOL__OOBR__ALL_OFF : Int := 0

/-- C source: `#define GOL__OOBR__ALL_ON 1`. -/
def GOL__OOBR__ALL_ON : Int := 1

/-- C source: `#define GOL__OOBR__TORUS 2`. -/
def GOL__OOBR__TORUS : Int := 2

/-- C `sizeof( char )`, which is 1 by definition in the C standard.
The source uses this value (not `CHAR_BIT`) as its per-word cell count. -/
def sizeofChar : Int := 1

/-- C cast `(char) v` on the gcc/Linux target: wrap to signed `[-128,128)`. -/
def castToChar (v : Int) : Int := (v + 128) % 256 - 128

/-- C left shift `1 << b` on nonnegative small `b` (the source only shifts
by bit indices in `[0, sizeofChar)`, i.e. by `0`). -/
def shl (a b : Int) : Int := a * 2 ^ b.toNat

/-- C logical negation `! v`: `1` when `v == 0`, else `0`. -/
def cNot (v : Int) : Int := if v = 0 then 1 else 0

/-- C logical conjunction `a && b`: `1` when both are nonzero, else `0`. -/
def cAnd (a b : Int) : Int := if a ≠ 0 ∧ b ≠ 0 then 1 else 0

/-- Result structure of C `lldiv`. -/
structure lldiv_t where
  quot : Int
  rem : Int
deriving DecidableEq, Repr

/-- C `lldiv`: truncated (round-toward-zero) division with matching
remainder. Division by zero is undefined behavior, modelled as `none`. -/
def lldiv (dividend divisor : Int) : Option lldiv_t :=
  if divisor = 0 then none
  else some ⟨Int.tdiv dividend divisor, Int.tmod dividend divisor⟩

/-- C source `lldivGreater`: pseudo-modulo with
`divisor * quotient >= dividend` for positive arguments (a ceiling
division for nonnegative operands). -/
def lldivGreater (dividend divisor : Int) : Option lldiv_t :=
  (lldiv dividend divisor).map fun normal =>
    if normal.rem = 0 then ⟨normal.quot, normal.rem⟩
    else if (dividend ≥ 0 ∧ divisor ≥ 0) ∨ (dividend < 0 ∧ divisor < 0) then
      ⟨normal.quot + 1, normal.rem - divisor⟩
    else
      ⟨normal.quot - 1, normal.rem + divisor⟩

/-- C source `lldivPositive`: modulo operation with nonnegative remainder. -/
def lldivPositive (dividend divisor : Int) : Option lldiv_t :=
  (lldiv dividend divisor).map fun normal =>
    if normal.rem ≥ 0 then normal
    else ⟨normal.quot - 1, normal.rem + divisor⟩

/-- C source `struct Grid_`. `origin` is the 2-dimensional `char` array,
modelled as a total function; `arraySizeX × arraySizeY` records the
allocated extent exactly as the source stores it. -/
structure Grid where
  origin : Int → Int → Int
  gridSizeX : Int
  gridSizeY : Int
  arraySizeX : Nat
  arraySizeY : Nat
  outOfBoundsRule : Int

/-- C source `struct CellIndex_`: `storageCharPtr` is a pointer to one
`char` of `origin`, modelled as the pair of array indices (`none` models
the NULL pointer); `bitIndex` is the bit offset within that `char`. -/
structure CellIndex where
  storageCharPtr : Option (Int × Int)
  bitIndex : Int
deriving DecidableEq, Repr

/-- C source `struct Game_`: a pair of Grids plus `currentGridPtr`, which
in every state the program constructs points at `gridA` or `gridB`;
the pointer is modelled as the selector `currentIsA`. -/
structure Game where
  gridA : Grid
  gridB : Grid
  currentIsA : Bool

/-- C source `createGrid`: rejects negative dimensions, then allocates a
`gridSizeX × lldivGreater(gridSizeY, sizeof(char)).quot` zero-initialized
(`calloc`) char array. Returns `none` on rejection (the source returns
NULL and prints to stderr). -/
def createGrid (gridSizeX gridSizeY outOfBoundsRule : Int) : Option Grid :=
  if gridSizeX < 0 ∨ gridSizeY < 0 then none
  else
    (lldivGreater gridSizeY sizeofChar).map fun d =>
      { origin := fun _ _ => 0
        gridSizeX := gridSizeX
        gridSizeY := gridSizeY
        arraySizeX := gridSizeX.toNat
        arraySizeY := d.quot.toNat
        outOfBoundsRule := outOfBoundsRule }

/-- Write one storage char of a grid (the effect of `*storageCharPtr = v`
through the pointer returned by `selsectCell`). -/
def writeOrigin (g : Grid) (i j v : Int) : Grid :=
  { g with origin := fun a b => if a = i ∧ b = j then v else g.origin a b }

/-- In-bounds test of C source `selsectCell`:
`x >= 0 && y >= 0 && x < gridSizeX && y < gridSizeY`. -/
def inBounds (g : Grid) (x y : Int) : Prop :=
  x ≥ 0 ∧ y ≥ 0 ∧ x < g.gridSizeX ∧ y < g.gridSizeY

instance (g : Grid) (x y : Int) : Decidable (inBounds g x y) :=
  inferInstanceAs (Decidable (_ ∧ _ ∧ _ ∧ _))

/-- In-bounds arm of C source `selsectCell`: word index and bit offset of
the cell via `lldiv( y, sizeof( char ) )`. -/
def selsectCellInBounds (_g : Grid) (x y : Int) : Option CellIndex :=
  (lldiv y sizeofChar).map fun division =>
    ⟨some (x, division.quot), division.rem⟩

/-- C source `selsectCell`. For in-bounds coordinates, resolves the
storage char and bit offset. Out of bounds with the `Torus` rule, reduces
both coordinates with `lldivPositive` and recurses; the source's
recursive call is unrolled one level here because when the reduced
coordinate is still out of bounds (possible only for a grid with a
nonpositive size, which `createGrid` never produces) the source recurses
forever — that divergence, like `lldivPositive`'s division by zero, is
modelled as `none`. Out of bounds otherwise, returns the NULL pointer
with the sentinel `bitIndex = sizeof(char)`. -/
def selsectCell (g : Grid) (x y : Int) : Option CellIndex :=
  if inBounds g x y then
    selsectCellInBounds g x y
  else if g.outOfBoundsRule = GOL__OOBR__TORUS then
    match lldivPositive x g.gridSizeX, lldivPositive y g.gridSizeY with
    | some dx, some dy =>
        if inBounds g dx.rem dy.rem then
          selsectCellInBounds g dx.rem dy.rem
        else none
    | _, _ => none
  else
    some ⟨none, sizeofChar⟩

/-- C source `getCell`. Reads a single cell. Note the source tests the
bit with logical `&&` (`*storageCharPtr && (char)(1 << bitIndex)`), so a
stored char counts as On exactly when it is nonzero (the mask `1 << 0`
is always nonzero). An out-of-bounds read synthesizes the state from
`outOfBoundsRule`; an unrecognized rule yields
`GOL__CELL_STATE__INVALID`. -/
def getCell (g : Grid) (x y : Int) : Option Int :=
  (selsectCell g x y).map fun targetIndex =>
    match targetIndex.storageCharPtr with
    | none =>
        if targetIndex.bitIndex ≠ sizeofChar then GOL__CELL_STATE__INVALID
        else if g.outOfBoundsRule = GOL__OOBR__ALL_OFF then GOL__CELL_STATE__OFF
        else if g.outOfBoundsRule = GOL__CELL_STATE__ON then GOL__CELL_STATE__ON
        else GOL__CELL_STATE__INVALID
    | some (i, j) =>
        if cAnd (g.origin i j) (castToChar (shl 1 targetIndex.bitIndex)) = 0
        then GOL__CELL_STATE__OFF
        else GOL__CELL_STATE__ON

/-- C source `setCell`. Writes a single cell, returning the `ErrorChar`
(0 success, 1 out-of-bounds, 2 invalid state) together with the updated
grid. Clearing uses the logical negation of the mask
(`*storageCharPtr &= !( (char)(1 << bitIndex) )`), which zeroes the whole
storage char. Dereferencing a NULL `storageCharPtr` (impossible through
`selsectCell`, whose NULL results always carry the sentinel bit index)
would be undefined behavior, modelled as `none`. -/
def setCell (g : Grid) (x y newState : Int) : Option (Int × Grid) :=
  (selsectCell g x y).bind fun targetIndex =>
    if targetIndex.bitIndex = sizeofChar then
      some (1, g)
    else
      match targetIndex.storageCharPtr with
      | none => none
      | some (i, j) =>
          if newState = GOL__CELL_STATE__OFF then
            some (0, writeOrigin g i j
              (Int.land (g.origin i j) (cNot (castToChar (shl 1 targetIndex.bitIndex)))))
          else if newState = GOL__CELL_STATE__ON then
            some (0, writeOrigin g i j
              (Int.lor (g.origin i j) (castToChar (shl 1 targetIndex.bitIndex))))
          else
            some (2, g)

/-- Coordinates visited by the source's double loops
(`for i in [0, gridSizeX) { for j in [0, gridSizeY) }`), in loop order. -/
def coordList (sizeX sizeY : Int) : List (Int × Int) :=
  (List.range sizeX.toNat).flatMap fun i =>
    (List.range sizeY.toNat).map fun j => ((Nat.cast i : Int), (Nat.cast j : Int))

/-- Neighbor sum of C source `iterateGame`: the eight `getCell` reads
around `(i, j)`, added in source order. -/
def neighborSum (src : Grid) (i j : Int) : Option Int :=
  (getCell src (i-1) (j-1)).bind fun n1 =>
  (getCell src (i-1) j).bind fun n2 =>
  (getCell src (i-1) (j+1)).bind fun n3 =>
  (getCell src i (j-1)).bind fun n4 =>
  (getCell src i (j+1)).bind fun n5 =>
  (getCell src (i+1) (j-1)).bind fun n6 =>
  (getCell src (i+1) j).bind fun n7 =>
  (getCell src (i+1) (j+1)).map fun n8 =>
  n1 + n2 + n3 + n4 + n5 + n6 + n7 + n8

/-- Loop body of C source `iterateGame`: compute the neighbor sum of
`(i, j)` in `src`, apply the Game of Life rule to the current state read
from `src`, and write the result into `trg`. -/
def iterateCell (src trg : Grid) (i j : Int) : Option Grid :=
  (neighborSum src i j).bind fun neighbors =>
  (getCell src i j).bind fun current =>
  (if current = GOL__CELL_STATE__OFF then
    if neighbors = 3 then setCell trg i j GOL__CELL_STATE__ON
    else setCell trg i j GOL__CELL_STATE__OFF
  else
    if neighbors < 2 ∨ neighbors > 3 then setCell trg i j GOL__CELL_STATE__OFF
    else setCell trg i j GOL__CELL_STATE__ON).map Prod.snd

/-- C source `iterateGame`: flip `currentGridPtr` to the other grid, then
for every cell of the source grid compute the rule into the target grid. -/
def iterateGame (game : Game) : Option Game :=
  let srcGrid := if game.currentIsA then game.gridA else game.gridB
  let trgGrid := if game.currentIsA then game.gridB else game.gridA
  ((coordList srcGrid.gridSizeX srcGrid.gridSizeY).foldlM
      (fun t p => iterateCell srcGrid t p.1 p.2) trgGrid).map fun trgFinal =>
    if game.currentIsA then
      ⟨game.gridA, trgFinal, false⟩
    else
      ⟨trgFinal, game.gridB, true⟩

/-- C source `randomizeGrid` loop body: one call of `rand() % 2` decides
whether the cell is cleared (nonzero) or set (zero); the `randSeq`
stream supplies the successive `rand()` results. -/
def randStep (randSeq : Nat → Int) (acc : Grid × Nat) (p : Int × Int) :
    Option (Grid × Nat) :=
  (if Int.tmod (randSeq acc.2) 2 ≠ 0 then
      setCell acc.1 p.1 p.2 GOL__CELL_STATE__OFF
    else
      setCell acc.1 p.1 p.2 GOL__CELL_STATE__ON).map fun eg => (eg.2, acc.2 + 1)

/-- C source `randomizeGrid`: set every cell of the grid from one draw of
the random stream each, in loop order. -/
def randomizeGrid (g : Grid) (randSeq : Nat → Int) : Option Grid :=
  ((coordList g.gridSizeX g.gridSizeY).foldlM (randStep randSeq) (g, 0)).map
    Prod.fst

/-- C source `createGame`: two grids of identical dimensions and rule,
`currentGridPtr` starting at `gridA`. -/
def createGame (gridSizeX gridSizeY outOfBoundsRule : Int) : Option Game :=
  (createGrid gridSizeX gridSizeY outOfBoundsRule).bind fun a =>
    (createGrid gridSizeX gridSizeY outOfBoundsRule).map fun b =>
      ⟨a, b, true⟩

/-- The grid `currentGridPtr` points at. -/
def currentGrid (game : Game) : Grid :=
  if game.currentIsA then game.gridA else game.gridB

/-! ### Arithmetic helper lemmas -/

theorem castToChar_one_shl_zero : castToChar (shl 1 0) = 1 := by decide

theorem cNot_one : cNot 1 = 0 := rfl

theorem land_zero_int (v : Int) : Int.land v 0 = 0 := by
  rcases v with m | m
  · show Int.ofNat (m &&& 0) = 0
    simp
  · show Int.ofNat (Nat.ldiff 0 m) = 0
    simp [Nat.ldiff, Nat.bitwise]

theorem lor_one_ne_zero (v : Int) : Int.lor v 1 ≠ 0 := by
  rcases v with m | m
  · show Int.ofNat (m ||| 1) ≠ 0
    intro h
    have h2 : m ||| 1 = 0 := Int.ofNat.inj h
    have h3 := Nat.testBit_or m 1 0
    rw [h2] at h3
    simp at h3
  · show Int.negSucc (Nat.ldiff m 1) ≠ 0
    intro h
    cases h

theorem lor_one_of_binary {v : Int} (h : v = 0 ∨ v = 1) : Int.lor v 1 = 1 := by
  rcases h with rfl | rfl <;> decide

theorem neg_lt_tmod {b : Int} (a : Int) (hb : 0 < b) : -b < Int.tmod a b := by
  rcases a with m | m
  · have h1 : 0 ≤ Int.tmod (Int.ofNat m) b := Int.tmod_nonneg b (Int.ofNat_nonneg m)
    omega
  · rcases b with n | n
    · have hn : 0 < n := by
        simp only [Int.ofNat_eq_natCast] at hb
        omega
      have hdef : Int.tmod (Int.negSucc m) (Int.ofNat n) = -Int.ofNat ((m+1) % n) := rfl
      rw [hdef]
      have hlt : (m+1) % n < n := Nat.mod_lt _ hn
      simp only [Int.ofNat_eq_natCast]
      omega
    · have h2 := Int.negSucc_lt_zero n
      omega

theorem lldiv_one (a : Int) : lldiv a 1 = some ⟨a, 0⟩ := by
  simp [lldiv]

theorem lldivPositive_rem {b : Int} (a : Int) (hb : 0 < b) :
    (lldivPositive a b).map lldiv_t.rem = some (a % b) := by
  have hbne : b ≠ 0 := by omega
  have hmod : a % b = Int.tmod a b % b := by
    conv_lhs => rw [← Int.tmod_add_tdiv a b]
    rw [Int.add_mul_emod_self_left]
  unfold lldivPositive lldiv
  rw [if_neg hbne]
  by_cases h : Int.tmod a b ≥ 0
  · simp only [Option.map_some', if_pos h, Option.some.injEq]
    rw [hmod, Int.emod_eq_of_lt h (Int.tmod_lt_of_pos a hb)]
  · simp only [Option.map_some', if_neg h, Option.some.injEq]
    show Int.tmod a b + b = a % b
    rw [hmod]
    have h1 : Int.tmod a b % b = (Int.tmod a b + b) % b := by
      have h2 := Int.add_mul_emod_self_left (Int.tmod a b) b 1
      rw [Int.mul_one] at h2
      rw [h2]
    rw [h1, Int.emod_eq_of_lt (by have := neg_lt_tmod a hb; omega)
      (by have := Int.tmod_lt_of_pos a hb; omega)]

/-! ### `selsectCell` characterization -/

theorem selsectCellInBounds_eq (g : Grid) (x y : Int) :
    selsectCellInBounds g x y = some ⟨some (x, y), 0⟩ := by
  show (lldiv y sizeofChar).map _ = _
  rw [show sizeofChar = 1 from rfl, lldiv_one]
  rfl

theorem selsectCell_inBounds {g : Grid} {x y : Int} (h : inBounds g x y) :
    selsectCell g x y = some ⟨some (x, y), 0⟩ := by
  unfold selsectCell
  rw [if_pos h]
  exact selsectCellInBounds_eq g x y

theorem selsectCell_outOfBounds {g : Grid} {x y : Int} (h : ¬ inBounds g x y)
    (hr : g.outOfBoundsRule ≠ GOL__OOBR__TORUS) :
    selsectCell g x y = some ⟨none, sizeofChar⟩ := by
  unfold selsectCell
  rw [if_neg h, if_neg hr]

theorem selsectCell_torus {g : Grid} (x y : Int)
    (hr : g.outOfBoundsRule = GOL__OOBR__TORUS)
    (hx : 0 < g.gridSizeX) (hy : 0 < g.gridSizeY) :
    selsectCell g x y = some ⟨some (x % g.gridSizeX, y % g.gridSizeY), 0⟩ := by
  by_cases h : inBounds g x y
  · rw [selsectCell_inBounds h,
      Int.emod_eq_of_lt h.1 h.2.2.1, Int.emod_eq_of_lt h.2.1 h.2.2.2]
  · unfold selsectCell
    rw [if_neg h, if_pos hr]
    have hxr := lldivPositive_rem x hx
    have hyr := lldivPositive_rem y hy
    rcases hdx : lldivPositive x g.gridSizeX with _ | dx
    · rw [hdx] at hxr; cases hxr
    rcases hdy : lldivPositive y g.gridSizeY with _ | dy
    · rw [hdy] at hyr; cases hyr
    rw [hdx] at hxr
    rw [hdy] at hyr
    simp only [Option.map_some', Option.some.injEq] at hxr hyr
    have hx0 : 0 ≤ x % g.gridSizeX := Int.emod_nonneg x (by omega)
    have hx1 : x % g.gridSizeX < g.gridSizeX := Int.emod_lt_of_pos x hx
    have hy0 : 0 ≤ y % g.gridSizeY := Int.emod_nonneg y (by omega)
    have hy1 : y % g.gridSizeY < g.gridSizeY := Int.emod_lt_of_pos y hy
    show (if inBounds g dx.rem dy.rem then selsectCellInBounds g dx.rem dy.rem else none) = _
    rw [if_pos (show inBounds g dx.rem dy.rem by
      rw [hxr, hyr]; exact ⟨hx0, hy0, hx1, hy1⟩)]
    rw [selsectCellInBounds_eq, hxr, hyr]

/-! ### `getCell` characterization -/

theorem getCell_inBounds {g : Grid} {x y : Int} (h : inBounds g x y) :
    getCell g x y =
      some (if g.origin x y = 0 then GOL__CELL_STATE__OFF else GOL__CELL_STATE__ON) := by
  unfold getCell
  rw [selsectCell_inBounds h]
  simp only [Option.map_some', Option.some.injEq]
  show (if cAnd (g.origin x y) (castToChar (shl 1 0)) = 0 then _ else _) = _
  rw [castToChar_one_shl_zero]
  by_cases hv : g.origin x y = 0 <;>
    simp [cAnd, hv]

theorem getCell_outOfBounds {g : Grid} {x y : Int} (h : ¬ inBounds g x y)
    (hr : g.outOfBoundsRule ≠ GOL__OOBR__TORUS) :
    getCell g x y =
      some (if g.outOfBoundsRule = GOL__OOBR__ALL_OFF then GOL__CELL_STATE__OFF
        else if g.outOfBoundsRule = GOL__OOBR__ALL_ON then GOL__CELL_STATE__ON
        else GOL__CELL_STATE__INVALID) := by
  unfold getCell
  rw [selsectCell_outOfBounds h hr]
  simp only [Option.map_some', Option.some.injEq]
  show (if (sizeofChar ≠ sizeofChar) then _ else _) = _
  rw [if_neg (by simp)]
  rfl

theorem getCell_torus {g : Grid} (x y : Int)
    (hr : g.outOfBoundsRule = GOL__OOBR__TORUS)
    (hx : 0 < g.gridSizeX) (hy : 0 < g.gridSizeY) :
    getCell g x y =
      some (if g.origin (x % g.gridSizeX) (y % g.gridSizeY) = 0
        then GOL__CELL_STATE__OFF else GOL__CELL_STATE__ON) := by
  unfold getCell
  rw [selsectCell_torus x y hr hx hy]
  simp only [Option.map_some', Option.some.injEq]
  show (if cAnd (g.origin _ _) (castToChar (shl 1 0)) = 0 then _ else _) = _
  rw [castToChar_one_shl_zero]
  by_cases hv : g.origin (x % g.gridSizeX) (y % g.gridSizeY) = 0 <;>
    simp [cAnd, hv]

/-- The rule field holds one of the three defined boundary policies. -/
def validRule (g : Grid) : Prop :=
  g.outOfBoundsRule = GOL__OOBR__ALL_OFF ∨ g.outOfBoundsRule = GOL__OOBR__ALL_ON ∨
    g.outOfBoundsRule = GOL__OOBR__TORUS

/-- A torus grid must have positive sizes for reads to avoid the
division by zero / nontermination of the torus reduction. -/
def torusOk (g : Grid) : Prop :=
  g.outOfBoundsRule = GOL__OOBR__TORUS → 0 < g.gridSizeX ∧ 0 < g.gridSizeY

/-- Pure functional view of `getCell` on a grid with a defined boundary
policy: the cell value `getCell` returns, as `0` or `1`. -/
def readCell (g : Grid) (x y : Int) : Int :=
  if inBounds g x y then (if g.origin x y = 0 then 0 else 1)
  else if g.outOfBoundsRule = GOL__OOBR__TORUS then
    (if g.origin (x % g.gridSizeX) (y % g.gridSizeY) = 0 then 0 else 1)
  else if g.outOfBoundsRule = GOL__OOBR__ALL_OFF then 0
  else 1

theorem readCell_binary (g : Grid) (x y : Int) :
    readCell g x y = 0 ∨ readCell g x y = 1 := by
  unfold readCell
  split_ifs <;> simp

theorem getCell_eq_readCell {g : Grid} (hv : validRule g) (ht : torusOk g)
    (x y : Int) : getCell g x y = some (readCell g x y) := by
  unfold readCell
  by_cases h : inBounds g x y
  · rw [getCell_inBounds h, if_pos h]
    by_cases hz : g.origin x y = 0 <;> simp [hz, GOL__CELL_STATE__OFF, GOL__CELL_STATE__ON]
  · rw [if_neg h]
    by_cases hr : g.outOfBoundsRule = GOL__OOBR__TORUS
    · obtain ⟨hx, hy⟩ := ht hr
      rw [getCell_torus x y hr hx hy, if_pos hr]
      by_cases hz : g.origin (x % g.gridSizeX) (y % g.gridSizeY) = 0 <;>
        simp [hz, GOL__CELL_STATE__OFF, GOL__CELL_STATE__ON]
    · rw [getCell_outOfBounds h hr, if_neg hr]
      rcases hv with h0 | h1 | h2
      · simp [h0, GOL__OOBR__ALL_OFF, GOL__CELL_STATE__OFF]
      · rw [h1]
        decide
      · exact absurd h2 hr

/-! ### `setCell` characterization -/

theorem writeOrigin_origin (g : Grid) (i j v a b : Int) :
    (writeOrigin g i j v).origin a b = if a = i ∧ b = j then v else g.origin a b := rfl

theorem writeOrigin_gridSizeX (g : Grid) (i j v : Int) :
    (writeOrigin g i j v).gridSizeX = g.gridSizeX := rfl

theorem writeOrigin_gridSizeY (g : Grid) (i j v : Int) :
    (writeOrigin g i j v).gridSizeY = g.gridSizeY := rfl

theorem inBounds_writeOrigin (g : Grid) (i j v x y : Int) :
    inBounds (writeOrigin g i j v) x y ↔ inBounds g x y := Iff.rfl

theorem setCell_write_on {g : Grid} {x y i j : Int}
    (hsel : selsectCell g x y = some ⟨some (i, j), 0⟩) :
    setCell g x y GOL__CELL_STATE__ON =
      some (0, writeOrigin g i j (Int.lor (g.origin i j) 1)) := by
  unfold setCell
  rw [hsel]
  simp [castToChar_one_shl_zero, sizeofChar,
    GOL__CELL_STATE__ON, GOL__CELL_STATE__OFF]

theorem setCell_write_off {g : Grid} {x y i j : Int}
    (hsel : selsectCell g x y = some ⟨some (i, j), 0⟩) :
    setCell g x y GOL__CELL_STATE__OFF = some (0, writeOrigin g i j 0) := by
  unfold setCell
  rw [hsel]
  simp [castToChar_one_shl_zero, sizeofChar, cNot, land_zero_int,
    GOL__CELL_STATE__ON, GOL__CELL_STATE__OFF]

theorem setCell_inBounds_on {g : Grid} {x y : Int} (h : inBounds g x y) :
    setCell g x y GOL__CELL_STATE__ON =
      some (0, writeOrigin g x y (Int.lor (g.origin x y) 1)) :=
  setCell_write_on (selsectCell_inBounds h)

theorem setCell_inBounds_off {g : Grid} {x y : Int} (h : inBounds g x y) :
    setCell g x y GOL__CELL_STATE__OFF = some (0, writeOrigin g x y 0) :=
  setCell_write_off (selsectCell_inBounds h)

/-- Reading back the storage char just written: the cell reads On exactly
when the written char is nonzero. -/
theorem getCell_writeOrigin_self {g : Grid} {i j : Int} (h : inBounds g i j)
    (v : Int) :
    getCell (writeOrigin g i j v) i j =
      some (if v = 0 then GOL__CELL_STATE__OFF else GOL__CELL_STATE__ON) := by
  rw [getCell_inBounds ((inBounds_writeOrigin g i j v i j).mpr h),
    writeOrigin_origin,
    show (if i = i ∧ j = j then v else g.origin i j) = v from if_pos ⟨rfl, rfl⟩]

theorem setCell_outOfBounds {g : Grid} {x y : Int} (h : ¬ inBounds g x y)
    (hr : g.outOfBoundsRule ≠ GOL__OOBR__TORUS) (s : Int) :
    setCell g x y s = some (1, g) := by
  unfold setCell
  rw [selsectCell_outOfBounds h hr]
  simp

theorem setCell_invalid_state {g : Grid} {x y s : Int} (h : inBounds g x y)
    (hs0 : s ≠ GOL__CELL_STATE__OFF) (hs1 : s ≠ GOL__CELL_STATE__ON) :
    setCell g x y s = some (2, g) := by
  unfold setCell
  rw [selsectCell_inBounds h]
  simp [sizeofChar, hs0, hs1]

/-! ### The transition rule, cell by cell -/

/-- The eight neighbor coordinates of `(i, j)`, in the order the source
reads them. -/
def neighborCoords (i j : Int) : List (Int × Int) :=
  [(i-1, j-1), (i-1, j), (i-1, j+1), (i, j-1), (i, j+1),
    (i+1, j-1), (i+1, j), (i+1, j+1)]

/-- Total of the eight neighbor reads, through the pure view `readCell`. -/
def neighborTotal (src : Grid) (i j : Int) : Int :=
  ((neighborCoords i j).map fun p => readCell src p.1 p.2).sum

/-- The source's branch structure at one cell: the written cell ends up
On exactly when this holds. -/
def stepOn (src : Grid) (i j : Int) : Prop :=
  if readCell src i j = 0 then neighborTotal src i j = 3
  else ¬(neighborTotal src i j < 2 ∨ neighborTotal src i j > 3)

instance (src : Grid) (i j : Int) : Decidable (stepOn src i j) := by
  unfold stepOn
  infer_instance

theorem neighborSum_eq {src : Grid} (hv : validRule src) (ht : torusOk src)
    (i j : Int) : neighborSum src i j = some (neighborTotal src i j) := by
  unfold neighborSum
  rw [getCell_eq_readCell hv ht (i-1) (j-1), getCell_eq_readCell hv ht (i-1) j,
    getCell_eq_readCell hv ht (i-1) (j+1), getCell_eq_readCell hv ht i (j-1),
    getCell_eq_readCell hv ht i (j+1), getCell_eq_readCell hv ht (i+1) (j-1),
    getCell_eq_readCell hv ht (i+1) j, getCell_eq_readCell hv ht (i+1) (j+1)]
  simp only [Option.some_bind, Option.map_some', Option.some.injEq]
  simp only [neighborTotal, neighborCoords, List.map_cons, List.map_nil,
    List.sum_cons, List.sum_nil]
  ring

theorem iterateCell_eq {src trg : Grid} (hv : validRule src) (ht : torusOk src)
    {i j : Int} (hij : inBounds trg i j) :
    iterateCell src trg i j =
      some (writeOrigin trg i j
        (if stepOn src i j then Int.lor (trg.origin i j) 1 else 0)) := by
  unfold iterateCell
  rw [neighborSum_eq hv ht, getCell_eq_readCell hv ht i j]
  simp only [Option.some_bind]
  by_cases hc : readCell src i j = 0
  · rw [if_pos (show readCell src i j = GOL__CELL_STATE__OFF from hc)]
    by_cases hn : neighborTotal src i j = 3
    · rw [if_pos hn, setCell_inBounds_on hij,
        if_pos (show stepOn src i j by unfold stepOn; rw [if_pos hc]; exact hn)]
      rfl
    · rw [if_neg hn, setCell_inBounds_off hij,
        if_neg (show ¬ stepOn src i j by unfold stepOn; rw [if_pos hc]; exact hn)]
      rfl
  · rw [if_neg (show ¬ readCell src i j = GOL__CELL_STATE__OFF from hc)]
    by_cases hn : neighborTotal src i j < 2 ∨ neighborTotal src i j > 3
    · rw [if_pos hn, setCell_inBounds_off hij,
        if_neg (show ¬ stepOn src i j by
          unfold stepOn; rw [if_neg hc]; exact fun h => h hn)]
      rfl
    · rw [if_neg hn, setCell_inBounds_on hij,
        if_pos (show stepOn src i j by unfold stepOn; rw [if_neg hc]; exact hn)]
      rfl

/-- One pass of the source's double loop over an arbitrary coordinate
list: every visited cell of the target holds the rule value afterwards
(nonzero exactly when `stepOn`), every unvisited cell is untouched, and
the non-storage fields survive. -/
theorem foldlM_iterateCell {src : Grid} (hv : validRule src) (ht : torusOk src) :
    ∀ (L : List (Int × Int)) (trg : Grid), (∀ p ∈ L, inBounds trg p.1 p.2) →
    ∃ t, L.foldlM (fun t p => iterateCell src t p.1 p.2) trg = some t ∧
      t.gridSizeX = trg.gridSizeX ∧ t.gridSizeY = trg.gridSizeY ∧
      t.outOfBoundsRule = trg.outOfBoundsRule ∧
      ∀ p : Int × Int,
        (p ∈ L → (t.origin p.1 p.2 ≠ 0 ↔ stepOn src p.1 p.2)) ∧
        (p ∉ L → t.origin p.1 p.2 = trg.origin p.1 p.2) := by
  intro L
  induction L with
  | nil =>
      intro trg _
      exact ⟨trg, rfl, rfl, rfl, rfl, fun p => ⟨fun hp => absurd hp (by simp), fun _ => rfl⟩⟩
  | cons c L ih =>
      intro trg hmem
      have hc : inBounds trg c.1 c.2 := hmem c (by simp)
      have hstep := iterateCell_eq hv ht hc
      set v : Int := if stepOn src c.1 c.2 then Int.lor (trg.origin c.1 c.2) 1 else 0 with hvdef
      set t1 : Grid := writeOrigin trg c.1 c.2 v with ht1
      obtain ⟨t, hfold, hsx, hsy, hrule, horig⟩ := ih t1 (fun p hp => hmem p (by simp [hp]))
      refine ⟨t, ?_, ?_, ?_, ?_, ?_⟩
      · rw [List.foldlM_cons, hstep]
        exact hfold
      · rw [hsx]; rfl
      · rw [hsy]; rfl
      · rw [hrule]; rfl
      · intro p
        constructor
        · intro hp
          rcases List.mem_cons.mp hp with hpc | hpl
          · by_cases hpl2 : p ∈ L
            · exact (horig p).1 hpl2
            · rw [(horig p).2 hpl2, hpc, ht1, writeOrigin_origin,
                if_pos ⟨rfl, rfl⟩, hvdef]
              by_cases hs : stepOn src c.1 c.2
              · rw [if_pos hs]
                exact ⟨fun _ => hs, fun _ => lor_one_ne_zero _⟩
              · rw [if_neg hs]
                exact ⟨fun hz => absurd rfl hz, fun hss => absurd hss hs⟩
          · exact (horig p).1 hpl
        · intro hp
          have hp1 : p ∉ L := fun h => hp (by simp [h])
          have hp2 : p ≠ c := fun h => hp (by simp [h])
          rw [(horig p).2 hp1, ht1, writeOrigin_origin,
            if_neg (fun hh => hp2 (Prod.ext hh.1 hh.2))]

theorem mem_coordList {sizeX sizeY : Int} {p : Int × Int} :
    p ∈ coordList sizeX sizeY ↔
      0 ≤ p.1 ∧ p.1 < sizeX ∧ 0 ≤ p.2 ∧ p.2 < sizeY := by
  rcases p with ⟨a, b⟩
  constructor
  · intro hp
    obtain ⟨i, hi, hp2⟩ := List.mem_flatMap.mp hp
    obtain ⟨j, hj, hp3⟩ := List.mem_map.mp hp2
    rw [List.mem_range] at hi hj
    rw [Prod.mk.injEq] at hp3
    obtain ⟨ha, hb⟩ := hp3
    refine ⟨?_, ?_, ?_, ?_⟩ <;> omega
  · rintro ⟨ha0, ha1, hb0, hb1⟩
    refine List.mem_flatMap.mpr ⟨a.toNat, List.mem_range.mpr (by omega), ?_⟩
    refine List.mem_map.mpr ⟨b.toNat, List.mem_range.mpr (by omega), ?_⟩
    rw [Prod.mk.injEq]
    exact ⟨by omega, by omega⟩

/-- The grid `currentGridPtr` does not point at (the step target). -/
def otherGrid (game : Game) : Grid :=
  if game.currentIsA then game.gridB else game.gridA

theorem foldlM_coordList {src trg : Grid} (hv : validRule src)
    (hX : trg.gridSizeX = src.gridSizeX) (hY : trg.gridSizeY = src.gridSizeY) :
    ∃ t, (coordList src.gridSizeX src.gridSizeY).foldlM
        (fun t p => iterateCell src t p.1 p.2) trg = some t ∧
      t.gridSizeX = trg.gridSizeX ∧ t.gridSizeY = trg.gridSizeY ∧
      t.outOfBoundsRule = trg.outOfBoundsRule ∧
      ∀ p : Int × Int,
        (inBounds src p.1 p.2 → (t.origin p.1 p.2 ≠ 0 ↔ stepOn src p.1 p.2)) ∧
        (¬ inBounds src p.1 p.2 → t.origin p.1 p.2 = trg.origin p.1 p.2) := by
  by_cases hpos : 0 < src.gridSizeX ∧ 0 < src.gridSizeY
  · have ht : torusOk src := fun _ => hpos
    obtain ⟨t, hfold, h1, h2, h3, horig⟩ :=
      foldlM_iterateCell hv ht (coordList src.gridSizeX src.gridSizeY) trg
        (fun p hp => by
          have hm := mem_coordList.mp hp
          exact ⟨hm.1, hm.2.2.1, by rw [hX]; exact hm.2.1, by rw [hY]; exact hm.2.2.2⟩)
    refine ⟨t, hfold, h1, h2, h3, fun p => ⟨fun hin => ?_, fun hout => ?_⟩⟩
    · exact (horig p).1 (mem_coordList.mpr ⟨hin.1, hin.2.2.1, hin.2.1, hin.2.2.2⟩)
    · refine (horig p).2 fun hmem => hout ?_
      have hm := mem_coordList.mp hmem
      exact ⟨hm.1, hm.2.2.1, hm.2.1, hm.2.2.2⟩
  · have hnil : coordList src.gridSizeX src.gridSizeY = [] := by
      rw [List.eq_nil_iff_forall_not_mem]
      intro p hp
      have hm := mem_coordList.mp hp
      exact hpos ⟨by omega, by omega⟩
    refine ⟨trg, by rw [hnil]; rfl, rfl, rfl, rfl,
      fun p => ⟨fun hin => ?_, fun _ => rfl⟩⟩
    obtain ⟨h1, h2, h3, h4⟩ := hin
    exact (hpos ⟨by omega, by omega⟩).elim

/-- Full characterization of one `iterateGame` step on a game whose two
grids agree in size: the step succeeds, the current-grid selector flips,
the old source grid is untouched, and every in-bounds cell of the new
current grid holds exactly the rule value computed from the old current
grid (nonzero storage exactly when `stepOn`). -/
theorem iterateGame_eq {game : Game}
    (hX : (otherGrid game).gridSizeX = (currentGrid game).gridSizeX)
    (hY : (otherGrid game).gridSizeY = (currentGrid game).gridSizeY)
    (hv : validRule (currentGrid game)) :
    ∃ game', iterateGame game = some game' ∧
      game'.currentIsA = (!game.currentIsA) ∧
      otherGrid game' = currentGrid game ∧
      (currentGrid game').gridSizeX = (otherGrid game).gridSizeX ∧
      (currentGrid game').gridSizeY = (otherGrid game).gridSizeY ∧
      (currentGrid game').outOfBoundsRule = (otherGrid game).outOfBoundsRule ∧
      ∀ x y : Int,
        (inBounds (currentGrid game) x y →
          ((currentGrid game').origin x y ≠ 0 ↔
            stepOn (currentGrid game) x y)) ∧
        (¬ inBounds (currentGrid game) x y →
          (currentGrid game').origin x y = (otherGrid game).origin x y) := by
  obtain ⟨t, hfold, h1, h2, h3, horig⟩ := foldlM_coordList hv hX hY
  cases hcA : game.currentIsA
  · refine ⟨⟨t, game.gridB, true⟩, ?_, ?_, ?_, ?_, ?_, ?_, ?_⟩
    · unfold iterateGame
      simp only [currentGrid, otherGrid, hcA, Bool.false_eq_true, if_false] at hfold ⊢
      rw [hfold, Option.map_some']
    · rfl
    · simp only [currentGrid, otherGrid, hcA, Bool.false_eq_true, if_false, if_true]
    · simp only [currentGrid, otherGrid, hcA, Bool.false_eq_true, if_false, if_true] at h1 ⊢
      exact h1
    · simp only [currentGrid, otherGrid, hcA, Bool.false_eq_true, if_false, if_true] at h2 ⊢
      exact h2
    · simp only [currentGrid, otherGrid, hcA, Bool.false_eq_true, if_false, if_true] at h3 ⊢
      exact h3
    · simp only [currentGrid, otherGrid, hcA, Bool.false_eq_true, if_false, if_true] at horig ⊢
      exact fun x y => horig (x, y)
  · refine ⟨⟨game.gridA, t, false⟩, ?_, ?_, ?_, ?_, ?_, ?_, ?_⟩
    · unfold iterateGame
      simp only [currentGrid, otherGrid, hcA, if_true] at hfold ⊢
      rw [hfold, Option.map_some']
    · rfl
    · simp only [currentGrid, otherGrid, hcA, Bool.false_eq_true, if_false, if_true]
    · simp only [currentGrid, otherGrid, hcA, Bool.false_eq_true, if_false, if_true] at h1 ⊢
      exact h1
    · simp only [currentGrid, otherGrid, hcA, Bool.false_eq_true, if_false, if_true] at h2 ⊢
      exact h2
    · simp only [currentGrid, otherGrid, hcA, Bool.false_eq_true, if_false, if_true] at h3 ⊢
      exact h3
    · simp only [currentGrid, otherGrid, hcA, Bool.false_eq_true, if_false, if_true] at horig ⊢
      exact fun x y => horig (x, y)

/-! ### Claim-level vocabulary: live-neighbor counts and the B3/S23 rule -/

theorem sum_eq_countP_one : ∀ (m : List Int), (∀ v ∈ m, v = 0 ∨ v = 1) →
    m.sum = ((m.countP fun v => decide (v = 1)) : Int) := by
  intro m
  induction m with
  | nil => intro _; simp
  | cons v m ih =>
      intro hb
      have hv := hb v (by simp)
      have hrest := ih fun w hw => hb w (by simp [hw])
      rcases hv with rfl | rfl <;>
        simp [List.countP_cons, List.sum_cons, hrest] <;> omega

/-- Number of the eight neighbors of `(i, j)` that `getCell` reports On. -/
def liveNeighbors (src : Grid) (i j : Int) : Nat :=
  (neighborCoords i j).countP fun p =>
    decide (getCell src p.1 p.2 = some GOL__CELL_STATE__ON)

theorem neighborTotal_eq_liveNeighbors {src : Grid} (hv : validRule src)
    (ht : torusOk src) (i j : Int) :
    neighborTotal src i j = (liveNeighbors src i j : Int) := by
  unfold neighborTotal liveNeighbors
  rw [sum_eq_countP_one _ ?_]
  · rw [List.countP_map]
    congr 1
    apply List.countP_congr
    intro p hp
    rw [Function.comp_apply, getCell_eq_readCell hv ht]
    rcases readCell_binary src p.1 p.2 with h | h <;>
      rw [h] <;> simp [GOL__CELL_STATE__ON]
  · intro v hv2
    obtain ⟨p, hp, rfl⟩ := List.mem_map.mp hv2
    exact readCell_binary src p.1 p.2

/-- The B3/S23 rule at one cell, read through `getCell`, exactly as the
specification words it: a currently-Off cell becomes On iff exactly 3 of
its 8 neighbors are On; a currently-On cell stays On iff its neighbor
count is 2 or 3. -/
def golRuleOn (src : Grid) (i j : Int) : Prop :=
  (getCell src i j = some GOL__CELL_STATE__OFF ∧ liveNeighbors src i j = 3) ∨
  (getCell src i j = some GOL__CELL_STATE__ON ∧
    (liveNeighbors src i j = 2 ∨ liveNeighbors src i j = 3))

instance (src : Grid) (i j : Int) : Decidable (golRuleOn src i j) := by
  unfold golRuleOn
  infer_instance

theorem stepOn_iff_golRuleOn {src : Grid} (hv : validRule src)
    (ht : torusOk src) (i j : Int) : stepOn src i j ↔ golRuleOn src i j := by
  unfold stepOn golRuleOn
  rw [getCell_eq_readCell hv ht i j, neighborTotal_eq_liveNeighbors hv ht i j]
  rcases readCell_binary src i j with h0 | h1
  · rw [if_pos h0, h0]
    simp only [Option.some.injEq]
    constructor
    · intro h3
      exact Or.inl ⟨rfl, by omega⟩
    · rintro (⟨_, hn⟩ | ⟨hcon, _⟩)
      · omega
      · exact absurd hcon (by decide)
  · rw [if_neg (by rw [h1]; decide), h1]
    simp only [Option.some.injEq]
    constructor
    · intro hnot
      refine Or.inr ⟨rfl, ?_⟩
      omega
    · rintro (⟨hcon, _⟩ | ⟨_, hn⟩)
      · exact absurd hcon (by decide)
      · omega

/-! ### Claim C1 -/

/-- C1: for every game whose two grids have identical width, height and
boundary policy (one of the three defined policies), one `iterateGame`
step succeeds, flips the current grid, and computes into every cell
`(x, y)` of `[0, width) × [0, height)` of the destination grid exactly
the B3/S23 rule applied through `getCell` to the source grid: On iff
`golRuleOn`, Off otherwise. The destination value is fully determined by
the source grid, so no destination cell retains a stale value. -/
theorem claim_C1_step_is_B3S23 (game : Game)
    (hX : (otherGrid game).gridSizeX = (currentGrid game).gridSizeX)
    (hY : (otherGrid game).gridSizeY = (currentGrid game).gridSizeY)
    (hR : (otherGrid game).outOfBoundsRule = (currentGrid game).outOfBoundsRule)
    (hv : validRule (currentGrid game)) :
    ∃ game', iterateGame game = some game' ∧
      game'.currentIsA = (!game.currentIsA) ∧
      ∀ x y : Int, inBounds (currentGrid game) x y →
        getCell (currentGrid game') x y =
          some (if golRuleOn (currentGrid game) x y
            then GOL__CELL_STATE__ON else GOL__CELL_STATE__OFF) := by
  obtain ⟨game', hg, hflip, hother, h1, h2, h3, horig⟩ := iterateGame_eq hX hY hv
  refine ⟨game', hg, hflip, fun x y hin => ?_⟩
  obtain ⟨hb1, hb2, hb3, hb4⟩ := hin
  have ht : torusOk (currentGrid game) := fun _ => ⟨by omega, by omega⟩
  have hin2 : inBounds (currentGrid game') x y := by
    refine ⟨hb1, hb2, ?_, ?_⟩
    · rw [h1, hX]; exact hb3
    · rw [h2, hY]; exact hb4
  rw [getCell_inBounds hin2]
  have hiff := (horig x y).1 ⟨hb1, hb2, hb3, hb4⟩
  rw [stepOn_iff_golRuleOn hv ht x y] at hiff
  by_cases hrule : golRuleOn (currentGrid game) x y
  · rw [if_neg (hiff.mpr hrule), if_pos hrule]
  · rw [if_pos (by by_contra hne; exact hrule (hiff.mp hne)), if_neg hrule]

/-- Concrete game for the C1 witness: 1 × 1, AllOff policy, both grids
all zero, current grid A (the value of `createGame 1 1 0`). -/
def gameC1 : Game :=
  ⟨⟨fun _ _ => 0, 1, 1, 1, 1, 0⟩, ⟨fun _ _ => 0, 1, 1, 1, 1, 0⟩, true⟩

theorem claim_C1_step_is_B3S23_witness :
    (iterateGame gameC1).map (fun gm => getCell (currentGrid gm) 0 0)
      = some (some GOL__CELL_STATE__OFF) := by
  obtain ⟨game', hg, hflip, hcell⟩ :=
    claim_C1_step_is_B3S23 gameC1 rfl rfl rfl (Or.inl rfl)
  rw [hg, Option.map_some',
    hcell 0 0 (by refine ⟨by decide, by decide, by decide, by decide⟩),
    if_neg (by decide)]

/-! ### Claims C4 and C10: writes, read-back and frame -/

/-- Effect of any successful `setCell` on everything except (possibly)
the addressed cell: sizes, rule, and every other storage char are
untouched. -/
theorem setCell_frame_core {g g2 : Grid} {x y s e : Int}
    (h : inBounds g x y) (hset : setCell g x y s = some (e, g2)) :
    g2.gridSizeX = g.gridSizeX ∧ g2.gridSizeY = g.gridSizeY ∧
    g2.outOfBoundsRule = g.outOfBoundsRule ∧
    ∀ a b : Int, ¬(a = x ∧ b = y) → g2.origin a b = g.origin a b := by
  by_cases hs0 : s = GOL__CELL_STATE__OFF
  · rw [hs0, setCell_inBounds_off h] at hset
    injection hset with hpair
    injection hpair with he hg
    subst hg
    exact ⟨rfl, rfl, rfl, fun a b hne => by rw [writeOrigin_origin, if_neg hne]⟩
  · by_cases hs1 : s = GOL__CELL_STATE__ON
    · rw [hs1, setCell_inBounds_on h] at hset
      injection hset with hpair
      injection hpair with he hg
      subst hg
      exact ⟨rfl, rfl, rfl, fun a b hne => by rw [writeOrigin_origin, if_neg hne]⟩
    · rw [setCell_invalid_state h hs0 hs1] at hset
      injection hset with hpair
      injection hpair with he hg
      subst hg
      exact ⟨rfl, rfl, rfl, fun a b _ => rfl⟩

/-- C4: read-after-write. For every grid and in-bounds coordinate,
immediately after `setCell (x, y) On` the cell reads On, and immediately
after `setCell (x, y) Off` it reads Off. -/
theorem claim_C4_read_after_write {g : Grid} {x y : Int} (h : inBounds g x y) :
    (setCell g x y GOL__CELL_STATE__ON).map (fun eg => getCell eg.2 x y)
        = some (some GOL__CELL_STATE__ON) ∧
    (setCell g x y GOL__CELL_STATE__OFF).map (fun eg => getCell eg.2 x y)
        = some (some GOL__CELL_STATE__OFF) := by
  constructor
  · rw [setCell_inBounds_on h, Option.map_some', getCell_writeOrigin_self h _,
      if_neg (lor_one_ne_zero _)]
  · rw [setCell_inBounds_off h, Option.map_some', getCell_writeOrigin_self h _,
      if_pos rfl]

/-- Concrete 2 × 2 all-zero AllOff grid for witnesses. -/
def gridC4 : Grid := ⟨fun _ _ => 0, 2, 2, 2, 2, GOL__OOBR__ALL_OFF⟩

theorem claim_C4_read_after_write_witness :
    (setCell gridC4 1 0 GOL__CELL_STATE__ON).map (fun eg => getCell eg.2 1 0)
      = some (some GOL__CELL_STATE__ON) :=
  (claim_C4_read_after_write (by decide)).1

/-- C10: frame property of `setCell`. A successful write at in-bounds
`(x, y)` leaves every other in-bounds cell `(x2, y2)` reading exactly
what it read before; in particular clearing a cell (which zeroes that
cell's whole storage char, the mask being the logical not of the bit
mask) disturbs no other cell, because each storage char addresses
exactly one cell. -/
theorem claim_C10_set_frame {g g2 : Grid} {x y x2 y2 s e : Int}
    (h : inBounds g x y) (h2 : inBounds g x2 y2) (hne : (x, y) ≠ (x2, y2))
    (hset : setCell g x y s = some (e, g2)) :
    getCell g2 x2 y2 = getCell g x2 y2 := by
  obtain ⟨hsx, hsy, _, horig⟩ := setCell_frame_core h hset
  have h2b : inBounds g2 x2 y2 := by
    obtain ⟨a, b, c, d⟩ := h2
    exact ⟨a, b, by rw [hsx]; exact c, by rw [hsy]; exact d⟩
  rw [getCell_inBounds h2b, getCell_inBounds h2,
    horig x2 y2 (fun hc => hne (by rw [hc.1, hc.2]))]

/-- Concrete 2 × 2 all-zero AllOff grid for the C10 witness. -/
def gridC10 : Grid := ⟨fun _ _ => 0, 2, 2, 2, 2, GOL__OOBR__ALL_OFF⟩

theorem claim_C10_set_frame_witness :
    getCell (writeOrigin gridC10 0 0 (Int.lor (gridC10.origin 0 0) 1)) 0 1
      = getCell gridC10 0 1 :=
  claim_C10_set_frame (by decide) (by decide) (by decide)
    (setCell_inBounds_on (by decide))

/-! ### Claim C3: toroidal wraparound of reads -/

/-- C3: on a Torus grid with positive sizes, `getCell` at any coordinate
of any sign and magnitude reads the in-bounds cell obtained by
nonnegative-remainder modulo reduction; the reduced coordinate lies in
`[0, W) × [0, H)`; and in particular `get(-1, 0) = get(W-1, 0)`,
`get(W, 0) = get(0, 0)` and `get(2W, 0) = get(0, 0)`. -/
theorem claim_C3_torus_wraparound {g : Grid}
    (hr : g.outOfBoundsRule = GOL__OOBR__TORUS)
    (hx : 0 < g.gridSizeX) (hy : 0 < g.gridSizeY) (x y : Int) :
    getCell g x y = getCell g (x % g.gridSizeX) (y % g.gridSizeY) ∧
    0 ≤ x % g.gridSizeX ∧ x % g.gridSizeX < g.gridSizeX ∧
    0 ≤ y % g.gridSizeY ∧ y % g.gridSizeY < g.gridSizeY ∧
    getCell g (-1) 0 = getCell g (g.gridSizeX - 1) 0 ∧
    getCell g g.gridSizeX 0 = getCell g 0 0 ∧
    getCell g (2 * g.gridSizeX) 0 = getCell g 0 0 := by
  have hxne : g.gridSizeX ≠ 0 := by omega
  have hyne : g.gridSizeY ≠ 0 := by omega
  have key : ∀ a b : Int,
      getCell g a b = getCell g (a % g.gridSizeX) (b % g.gridSizeY) := by
    intro a b
    rw [getCell_torus a b hr hx hy,
      getCell_torus (a % g.gridSizeX) (b % g.gridSizeY) hr hx hy,
      Int.emod_emod_of_dvd a dvd_rfl, Int.emod_emod_of_dvd b dvd_rfl]
  have em1 : (-1 : Int) % g.gridSizeX = (g.gridSizeX - 1) % g.gridSizeX := by
    have h2 := Int.add_mul_emod_self_left (-1) g.gridSizeX 1
    rw [Int.mul_one] at h2
    rw [← h2]
    congr 1
    ring
  have em2 : g.gridSizeX % g.gridSizeX = (0 : Int) % g.gridSizeX := by
    rw [Int.emod_self, Int.zero_emod]
  have em3 : (2 * g.gridSizeX) % g.gridSizeX = (0 : Int) % g.gridSizeX := by
    rw [Int.mul_comm, Int.mul_emod_right, Int.zero_emod]
  refine ⟨key x y, Int.emod_nonneg x hxne, Int.emod_lt_of_pos x hx,
    Int.emod_nonneg y hyne, Int.emod_lt_of_pos y hy, ?_, ?_, ?_⟩
  · rw [key (-1) 0, key (g.gridSizeX - 1) 0, em1]
  · rw [key g.gridSizeX 0, key 0 0, em2]
  · rw [key (2 * g.gridSizeX) 0, key 0 0, em3]

/-- Concrete 3 × 3 Torus grid with a single On cell at `(2, 0)` for the
C3 witness. -/
def gridC3 : Grid :=
  ⟨fun a b => if a = 2 ∧ b = 0 then 1 else 0, 3, 3, 3, 3, GOL__OOBR__TORUS⟩

theorem claim_C3_torus_wraparound_witness :
    getCell gridC3 (-1) 0 = getCell gridC3 2 0 ∧
    getCell gridC3 (-1) 0 = some GOL__CELL_STATE__ON :=
  ⟨(claim_C3_torus_wraparound rfl (by decide) (by decide) (-1) 0).2.2.2.2.2.1,
    by decide⟩

/-! ### Claim C5: out-of-bounds writes -/

/-- Concrete 3 × 3 all-zero Torus grid, the value of
`createGrid 3 3 Torus`. -/
def gridC5 : Grid := ⟨fun _ _ => 0, 3, 3, 3, 3, GOL__OOBR__TORUS⟩

/-- C5 counterexample: on a Torus grid, an out-of-bounds `setCell` does
NOT fail: `setCell (-1, 0) On` on the 3 × 3 torus grid returns error
code 0 (success) and writes the wrapped cell `(2, 0)`, which afterwards
reads On. The claim that out-of-bounds cells are never settable under
every policy (wraparound being read-time only) is false on the code:
`selsectCell`, shared by reads and writes, wraps for both. -/
theorem claim_C5_counterexample :
    createGrid 3 3 GOL__OOBR__TORUS = some gridC5 ∧
    (setCell gridC5 (-1) 0 GOL__CELL_STATE__ON).map Prod.fst = some 0 ∧
    (setCell gridC5 (-1) 0 GOL__CELL_STATE__ON).map
        (fun eg => getCell eg.2 2 0) = some (some GOL__CELL_STATE__ON) := by
  refine ⟨rfl, by decide, by decide⟩

/-- C5 amended: under the `AllOff` and `AllOn` policies an out-of-bounds
`setCell` fails with error code 1 and leaves the grid unchanged; under
the `Torus` policy (positive sizes) an out-of-bounds `setCell` of a
valid state succeeds with error code 0 and writes the wrapped in-bounds
cell, which afterwards reads back the written state. -/
theorem claim_C5_set_oob_amended {g : Grid} {x y : Int} (h : ¬ inBounds g x y) :
    (g.outOfBoundsRule ≠ GOL__OOBR__TORUS →
      ∀ s : Int, setCell g x y s = some (1, g)) ∧
    (g.outOfBoundsRule = GOL__OOBR__TORUS → 0 < g.gridSizeX → 0 < g.gridSizeY →
      ∀ s : Int, (s = GOL__CELL_STATE__OFF ∨ s = GOL__CELL_STATE__ON) →
        (setCell g x y s).map Prod.fst = some 0 ∧
        (setCell g x y s).map
            (fun eg => getCell eg.2 (x % g.gridSizeX) (y % g.gridSizeY))
          = some (some s)) := by
  constructor
  · intro hr s
    exact setCell_outOfBounds h hr s
  · intro hr hx hy s hs
    have hsel := selsectCell_torus x y hr hx hy
    have hin : inBounds g (x % g.gridSizeX) (y % g.gridSizeY) :=
      ⟨Int.emod_nonneg x (by omega), Int.emod_nonneg y (by omega),
        Int.emod_lt_of_pos x hx, Int.emod_lt_of_pos y hy⟩
    rcases hs with rfl | rfl
    · rw [setCell_write_off hsel, Option.map_some', Option.map_some',
        getCell_writeOrigin_self hin, if_pos rfl]
      exact ⟨rfl, rfl⟩
    · rw [setCell_write_on hsel, Option.map_some', Option.map_some',
        getCell_writeOrigin_self hin, if_neg (lor_one_ne_zero _)]
      exact ⟨rfl, rfl⟩

/-- Concrete 3 × 3 all-zero AllOff grid for the C5 amended witness. -/
def gridC5b : Grid := ⟨fun _ _ => 0, 3, 3, 3, 3, GOL__OOBR__ALL_OFF⟩

theorem claim_C5_set_oob_amended_witness :
    setCell gridC5b 3 0 GOL__CELL_STATE__ON = some (1, gridC5b) :=
  (claim_C5_set_oob_amended (by decide)).1 (by decide) GOL__CELL_STATE__ON

/-! ### Claim C6: totality of reads -/

/-- C6 counterexample: `createGrid 2 0 Torus` succeeds (dimensions are
nonnegative), yet `getCell` at `(0, 0)` hits the torus reduction's
division by zero (`lldivPositive(y, 0)`), which is undefined behavior in
the source, modelled as `none` — not a defined cell state. -/
theorem claim_C6_counterexample :
    (createGrid 2 0 GOL__OOBR__TORUS).map (fun g => getCell g 0 0)
      = some none := by
  decide

/-- C6 amended: for a grid whose policy is `AllOff` or `AllOn` (any
sizes), or `Torus` with positive width and height, `getCell` at every
coordinate of any sign and magnitude returns a defined state, Off or On;
out-of-bounds reads yield Off under `AllOff` and On under `AllOn`. -/
theorem claim_C6_get_total_amended {g : Grid} (hv : validRule g)
    (ht : torusOk g) (x y : Int) :
    (getCell g x y = some GOL__CELL_STATE__OFF ∨
      getCell g x y = some GOL__CELL_STATE__ON) ∧
    (¬ inBounds g x y → g.outOfBoundsRule = GOL__OOBR__ALL_OFF →
      getCell g x y = some GOL__CELL_STATE__OFF) ∧
    (¬ inBounds g x y → g.outOfBoundsRule = GOL__OOBR__ALL_ON →
      getCell g x y = some GOL__CELL_STATE__ON) := by
  refine ⟨?_, ?_, ?_⟩
  · rw [getCell_eq_readCell hv ht x y]
    rcases readCell_binary g x y with h | h <;> rw [h]
    · exact Or.inl rfl
    · exact Or.inr rfl
  · intro hin hr
    rw [getCell_outOfBounds hin (by rw [hr]; decide), if_pos hr]
  · intro hin hr
    rw [getCell_outOfBounds hin (by rw [hr]; decide), if_neg (by rw [hr]; decide),
      if_pos hr]

/-- Concrete 2 × 2 all-zero AllOn grid for the C6 amended witness. -/
def gridC6 : Grid := ⟨fun _ _ => 0, 2, 2, 2, 2, GOL__OOBR__ALL_ON⟩

theorem claim_C6_get_total_amended_witness :
    getCell gridC6 (-1) (-1) = some GOL__CELL_STATE__ON :=
  (claim_C6_get_total_amended (Or.inr (Or.inl rfl)) (fun h => absurd h (by decide))
    (-1) (-1)).2.2 (by decide) rfl

/-! ### Claim C2: storage layout -/

/-- C2 (code-bug evidence): the source divides Y coordinates by
`sizeof( char )`, which is 1, not by the number of bits in a storage
unit, although its own header comment promises bit packing (one bit per
cell, Y limited by `LLONG_MAX * CHAR_BIT`). Concretely,
`createGrid 1 9 AllOff` allocates a 1 × 9 char array rather than
1 × ceil(9/8) = 1 × 2, and cell `(0, 8)` resolves to word index 8 with
bit offset 0 rather than word index floor(8/8) = 1: every cell occupies
a whole storage char at bit 0. -/
theorem claim_C2_storage_layout_eval :
    (createGrid 1 9 GOL__OOBR__ALL_OFF).map
        (fun g => (g.arraySizeX, g.arraySizeY)) = some (1, 9) ∧
    (createGrid 1 9 GOL__OOBR__ALL_OFF).map (fun g => selsectCell g 0 8)
      = some (some ⟨some (0, 8), 0⟩) ∧
    (9 : Nat) ≠ 2 ∧ ((8 : Int), (0 : Int)) ≠ (Int.tdiv 8 8, Int.tmod 8 8) := by
  refine ⟨by decide, by decide, by decide, by decide⟩

/-! ### Claim C9: the storage-binary invariant -/

/-- Every storage char of the grid holds 0 or 1. -/
def storageBinary (g : Grid) : Prop :=
  ∀ i j : Int, g.origin i j = 0 ∨ g.origin i j = 1

theorem createGrid_eq {sx sy : Int} (r : Int) (hx : 0 ≤ sx) (hy : 0 ≤ sy) :
    createGrid sx sy r = some ⟨fun _ _ => 0, sx, sy, sx.toNat, sy.toNat, r⟩ := by
  unfold createGrid lldivGreater
  rw [if_neg (by omega), show lldiv sy sizeofChar = some ⟨sy, 0⟩ from lldiv_one sy]
  simp only [Option.map_some']
  norm_num

/-- Every `CellIndex` the source's `selsectCell` can produce: either the
NULL pointer with the sentinel bit index, or a real pointer with bit
index 0. -/
theorem selsectCell_shape {g : Grid} {x y : Int} {ci : CellIndex}
    (h : selsectCell g x y = some ci) :
    ci = ⟨none, sizeofChar⟩ ∨ ∃ i j, ci = ⟨some (i, j), 0⟩ := by
  unfold selsectCell at h
  split at h
  · rw [selsectCellInBounds_eq] at h
    exact Or.inr ⟨x, y, (Option.some.inj h).symm⟩
  · split at h
    · split at h
      · split at h
        · rw [selsectCellInBounds_eq] at h
          exact Or.inr ⟨_, _, (Option.some.inj h).symm⟩
        · cases h
      · cases h
    · exact Or.inl (Option.some.inj h).symm

theorem setCell_binary_preserve {g : Grid} {x y s : Int} {p : Int × Grid}
    (hset : setCell g x y s = some p) (hb : storageBinary g) :
    storageBinary p.2 := by
  rcases hsel : selsectCell g x y with _ | ci
  · have hnone : setCell g x y s = none := by
      unfold setCell; rw [hsel]; rfl
    rw [hnone] at hset; cases hset
  · rcases selsectCell_shape hsel with rfl | ⟨i, j, rfl⟩
    · have h1 : setCell g x y s = some (1, g) := by
        unfold setCell
        rw [hsel, Option.some_bind, if_pos rfl]
      rw [h1] at hset
      obtain rfl := Option.some.inj hset
      exact hb
    · by_cases hs0 : s = GOL__CELL_STATE__OFF
      · rw [hs0, setCell_write_off hsel] at hset
        obtain rfl := Option.some.inj hset
        intro a b
        rw [writeOrigin_origin]
        by_cases hab : a = i ∧ b = j
        · rw [if_pos hab]; exact Or.inl rfl
        · rw [if_neg hab]; exact hb a b
      · by_cases hs1 : s = GOL__CELL_STATE__ON
        · rw [hs1, setCell_write_on hsel] at hset
          obtain rfl := Option.some.inj hset
          intro a b
          rw [writeOrigin_origin]
          by_cases hab : a = i ∧ b = j
          · rw [if_pos hab]; exact Or.inr (lor_one_of_binary (hb i j))
          · rw [if_neg hab]; exact hb a b
        · have h2 : setCell g x y s = some (2, g) := by
            unfold setCell
            rw [hsel, Option.some_bind]
            dsimp only
            rw [if_neg (by decide : ¬((0 : Int) = sizeofChar)), if_neg hs0,
              if_neg hs1]
          rw [h2] at hset
          obtain rfl := Option.some.inj hset
          exact hb

theorem foldlM_preserve {α β : Type} (P : β → Prop) (f : β → α → Option β)
    (hf : ∀ b a b2, P b → f b a = some b2 → P b2) :
    ∀ (L : List α) (b b2 : β), P b → L.foldlM f b = some b2 → P b2 := by
  intro L
  induction L with
  | nil =>
      intro b b2 hP h
      obtain rfl := Option.some.inj h
      exact hP
  | cons a L ih =>
      intro b b2 hP h
      rw [List.foldlM_cons] at h
      rcases hfa : f b a with _ | b1
      · rw [hfa] at h
        simp at h
      · rw [hfa] at h
        rw [show ((some b1 >>= fun b1 => List.foldlM f b1 L) : Option β)
          = List.foldlM f b1 L from rfl] at h
        exact ih b1 b2 (hf b a b1 hP hfa) h

theorem randStep_binary_preserve {rs : Nat → Int} {bk bk2 : Grid × Nat}
    {p : Int × Int} (hP : storageBinary bk.1)
    (h : randStep rs bk p = some bk2) : storageBinary bk2.1 := by
  unfold randStep at h
  split at h <;>
  · rcases hset : setCell bk.1 p.1 p.2 _ with _ | eg
    · rw [hset] at h; cases h
    · rw [hset, Option.map_some'] at h
      obtain rfl := Option.some.inj h
      exact setCell_binary_preserve hset hP

theorem randomizeGrid_binary_preserve {g g2 : Grid} {rs : Nat → Int}
    (hb : storageBinary g) (h : randomizeGrid g rs = some g2) :
    storageBinary g2 := by
  unfold randomizeGrid at h
  rcases hf : (coordList g.gridSizeX g.gridSizeY).foldlM (randStep rs) (g, 0)
    with _ | gk
  · rw [hf] at h; cases h
  · rw [hf, Option.map_some'] at h
    obtain rfl := Option.some.inj h
    exact foldlM_preserve (fun bk => storageBinary bk.1) (randStep rs)
      (fun b a b2 hP h2 => randStep_binary_preserve hP h2) _ (g, 0) gk hb hf

theorem iterateCell_binary_preserve {src t t2 : Grid} {i j : Int}
    (hb : storageBinary t) (h : iterateCell src t i j = some t2) :
    storageBinary t2 := by
  unfold iterateCell at h
  rcases hn : neighborSum src i j with _ | n
  · rw [hn] at h; cases h
  · rw [hn, Option.some_bind] at h
    rcases hc : getCell src i j with _ | c
    · rw [hc] at h; cases h
    · rw [hc, Option.some_bind] at h
      split at h <;> split at h <;>
      · rcases hset : setCell t i j _ with _ | eg
        · rw [hset] at h; cases h
        · rw [hset, Option.map_some'] at h
          obtain rfl := Option.some.inj h
          exact setCell_binary_preserve hset hb

theorem iterateGame_binary_preserve {game game2 : Game}
    (hA : storageBinary game.gridA) (hB : storageBinary game.gridB)
    (h : iterateGame game = some game2) :
    storageBinary game2.gridA ∧ storageBinary game2.gridB := by
  cases hcA : game.currentIsA
  · simp only [iterateGame, hcA, Bool.false_eq_true, if_false] at h
    rw [Option.map_eq_some'] at h
    obtain ⟨t, hfold, hgame⟩ := h
    have hbt : storageBinary t :=
      foldlM_preserve storageBinary _
        (fun b a b2 hP h2 => iterateCell_binary_preserve hP h2) _ _ _ hA hfold
    rw [← hgame]
    exact ⟨hbt, hB⟩
  · simp only [iterateGame, hcA, if_true] at h
    rw [Option.map_eq_some'] at h
    obtain ⟨t, hfold, hgame⟩ := h
    have hbt : storageBinary t :=
      foldlM_preserve storageBinary _
        (fun b a b2 hP h2 => iterateCell_binary_preserve hP h2) _ _ _ hB hfold
    rw [← hgame]
    exact ⟨hA, hbt⟩

theorem getCell_binary_agree {g : Grid} (hb : storageBinary g) {x y : Int}
    (h : inBounds g x y) :
    (getCell g x y = some GOL__CELL_STATE__ON ↔ g.origin x y = 1) ∧
    (getCell g x y = some GOL__CELL_STATE__OFF ↔ g.origin x y = 0) := by
  rw [getCell_inBounds h]
  rcases hb x y with h0 | h1
  · rw [h0]; decide
  · rw [h1]; decide

/-- C9: every storage char of every grid reachable through the public
operations holds only 0 or 1 — creation zero-initializes, and `setCell`,
`randomizeGrid` and `iterateGame` preserve the invariant — and under
this invariant `getCell`'s logical-AND truth test of the whole storage
char agrees exactly with the state of the addressed cell. -/
theorem claim_C9_storage_binary_invariant :
    (∀ sx sy r : Int, ∀ g : Grid, createGrid sx sy r = some g →
      storageBinary g) ∧
    (∀ (g : Grid) (x y s : Int) (p : Int × Grid), storageBinary g →
      setCell g x y s = some p → storageBinary p.2) ∧
    (∀ (g : Grid) (rs : Nat → Int) (g2 : Grid), storageBinary g →
      randomizeGrid g rs = some g2 → storageBinary g2) ∧
    (∀ game game2 : Game, storageBinary game.gridA → storageBinary game.gridB →
      iterateGame game = some game2 →
      storageBinary game2.gridA ∧ storageBinary game2.gridB) ∧
    (∀ (g : Grid) (x y : Int), storageBinary g → inBounds g x y →
      ((getCell g x y = some GOL__CELL_STATE__ON ↔ g.origin x y = 1) ∧
        (getCell g x y = some GOL__CELL_STATE__OFF ↔ g.origin x y = 0))) := by
  refine ⟨?_, ?_, ?_, ?_, ?_⟩
  · intro sx sy r g h
    by_cases hneg : sx < 0 ∨ sy < 0
    · unfold createGrid at h
      rw [if_pos hneg] at h
      cases h
    · rw [createGrid_eq r (by omega) (by omega)] at h
      obtain rfl := Option.some.inj h
      intro i j
      exact Or.inl rfl
  · exact fun g x y s p hb hset => setCell_binary_preserve hset hb
  · exact fun g rs g2 hb h => randomizeGrid_binary_preserve hb h
  · exact fun game game2 hA hB h => iterateGame_binary_preserve hA hB h
  · exact fun g x y hb hin => getCell_binary_agree hb hin

/-- Concrete 1 × 1 all-zero AllOff grid for the C9 witness. -/
def gridC9 : Grid := ⟨fun _ _ => 0, 1, 1, 1, 1, GOL__OOBR__ALL_OFF⟩

theorem claim_C9_storage_binary_invariant_witness :
    getCell gridC9 0 0 = some GOL__CELL_STATE__OFF ↔ gridC9.origin 0 0 = 0 :=
  (claim_C9_storage_binary_invariant.2.2.2.2 gridC9 0 0
    (fun i j => Or.inl rfl) (by decide)).2

/-! ### Claim C7: stasis of the fully-Off grid -/

/-- Concrete 3 × 3 all-zero AllOn game, the value of
`createGame 3 3 AllOn`. -/
def gameC7 : Game :=
  ⟨⟨fun _ _ => 0, 3, 3, 3, 3, GOL__OOBR__ALL_ON⟩,
    ⟨fun _ _ => 0, 3, 3, 3, 3, GOL__OOBR__ALL_ON⟩, true⟩

/-- C7 counterexample: under the `AllOn` boundary policy a fully-Off
grid does NOT stay fully-Off. On the 3 × 3 all-Off AllOn game, the edge
cell `(0, 1)` sees its three out-of-bounds neighbors as On, so one
`iterateGame` step turns it On. -/
theorem claim_C7_counterexample :
    createGame 3 3 GOL__OOBR__ALL_ON = some gameC7 ∧
    getCell (currentGrid gameC7) 0 1 = some GOL__CELL_STATE__OFF ∧
    (iterateGame gameC7).map (fun gm => getCell (currentGrid gm) 0 1)
      = some (some GOL__CELL_STATE__ON) :=
  ⟨rfl, by decide, by decide⟩

/-- C7 amended: under the `AllOff` or `Torus` boundary policies, a game
whose current grid is fully Off steps to a game whose current grid is
still fully Off (stable stasis). Under `AllOn` this fails (see the
counterexample). -/
theorem claim_C7_alloff_stasis_amended (game : Game)
    (hX : (otherGrid game).gridSizeX = (currentGrid game).gridSizeX)
    (hY : (otherGrid game).gridSizeY = (currentGrid game).gridSizeY)
    (hr : (currentGrid game).outOfBoundsRule = GOL__OOBR__ALL_OFF ∨
      (currentGrid game).outOfBoundsRule = GOL__OOBR__TORUS)
    (hoff : ∀ x y : Int, inBounds (currentGrid game) x y →
      getCell (currentGrid game) x y = some GOL__CELL_STATE__OFF) :
    ∃ game', iterateGame game = some game' ∧
      (currentGrid game').gridSizeX = (currentGrid game).gridSizeX ∧
      (currentGrid game').gridSizeY = (currentGrid game).gridSizeY ∧
      ∀ x y : Int, inBounds (currentGrid game') x y →
        getCell (currentGrid game') x y = some GOL__CELL_STATE__OFF := by
  have hv : validRule (currentGrid game) :=
    hr.elim Or.inl (fun h => Or.inr (Or.inr h))
  obtain ⟨game', hg, hflip, hother, h1, h2, h3, horig⟩ := iterateGame_eq hX hY hv
  refine ⟨game', hg, by rw [h1, hX], by rw [h2, hY], fun x y hin => ?_⟩
  have hinsrc : inBounds (currentGrid game) x y := by
    obtain ⟨a, b, c, d⟩ := hin
    rw [h1, hX] at c
    rw [h2, hY] at d
    exact ⟨a, b, c, d⟩
  obtain ⟨hb1, hb2, hb3, hb4⟩ := hinsrc
  have hzero : ∀ a b : Int, readCell (currentGrid game) a b = 0 := by
    intro a b
    unfold readCell
    by_cases hab : inBounds (currentGrid game) a b
    · rw [if_pos hab]
      have hread := hoff a b hab
      rw [getCell_inBounds hab] at hread
      have horz : (currentGrid game).origin a b = 0 := by
        by_contra hnz
        rw [if_neg hnz] at hread
        exact absurd (Option.some.inj hread) (by decide)
      rw [if_pos horz]
    · rw [if_neg hab]
      rcases hr with h0 | h2t
      · rw [if_neg (by rw [h0]; decide), if_pos h0]
      · rw [if_pos h2t]
        have hw : inBounds (currentGrid game)
            (a % (currentGrid game).gridSizeX)
            (b % (currentGrid game).gridSizeY) :=
          ⟨Int.emod_nonneg a (by omega), Int.emod_nonneg b (by omega),
            Int.emod_lt_of_pos a (by omega), Int.emod_lt_of_pos b (by omega)⟩
        have hread := hoff _ _ hw
        rw [getCell_inBounds hw] at hread
        have horz : (currentGrid game).origin
            (a % (currentGrid game).gridSizeX)
            (b % (currentGrid game).gridSizeY) = 0 := by
          by_contra hnz
          rw [if_neg hnz] at hread
          exact absurd (Option.some.inj hread) (by decide)
        rw [if_pos horz]
  have hnostep : ¬ stepOn (currentGrid game) x y := by
    unfold stepOn neighborTotal neighborCoords
    rw [hzero x y]
    simp [hzero]
  have horz2 : (currentGrid game').origin x y = 0 := by
    by_contra hnz
    exact hnostep (((horig x y).1 ⟨hb1, hb2, hb3, hb4⟩).mp hnz)
  rw [getCell_inBounds hin, if_pos horz2]

/-- Concrete 2 × 2 all-zero AllOff game for the C7 amended witness. -/
def gameC7w : Game :=
  ⟨⟨fun _ _ => 0, 2, 2, 2, 2, GOL__OOBR__ALL_OFF⟩,
    ⟨fun _ _ => 0, 2, 2, 2, 2, GOL__OOBR__ALL_OFF⟩, true⟩

theorem claim_C7_alloff_stasis_amended_witness :
    (iterateGame gameC7w).map (fun gm => getCell (currentGrid gm) 0 0)
      = some (some GOL__CELL_STATE__OFF) := by
  obtain ⟨game', hg, hsx, hsy, hoff2⟩ :=
    claim_C7_alloff_stasis_amended gameC7w rfl rfl (Or.inl rfl)
      (fun x y hin => by rw [getCell_inBounds hin]; rfl)
  rw [hg, Option.map_some',
    hoff2 0 0 ⟨by decide, by decide, by rw [hsx]; decide, by rw [hsy]; decide⟩]

/-! ### Claim C8: the period-2 blinker -/

/-- The blinker triple `{(1,0), (1,1), (1,2)}`. -/
def blinkerV (x y : Int) : Prop := x = 1 ∧ (y = 0 ∨ y = 1 ∨ y = 2)

/-- The blinker triple `{(0,1), (1,1), (2,1)}`. -/
def blinkerH (x y : Int) : Prop := y = 1 ∧ (x = 0 ∨ x = 1 ∨ x = 2)

instance (x y : Int) : Decidable (blinkerV x y) :=
  inferInstanceAs (Decidable (_ ∧ _))

instance (x y : Int) : Decidable (blinkerH x y) :=
  inferInstanceAs (Decidable (_ ∧ _))

set_option maxHeartbeats 3000000 in
theorem stepOn_of_blinkerV {src : Grid}
    (hr : src.outOfBoundsRule = GOL__OOBR__ALL_OFF)
    (hW : 3 ≤ src.gridSizeX) (hH : 3 ≤ src.gridSizeY)
    (hc : ∀ a b : Int, inBounds src a b →
      (getCell src a b = some GOL__CELL_STATE__ON ↔ blinkerV a b)) :
    ∀ x y : Int, inBounds src x y → (stepOn src x y ↔ blinkerH x y) := by
  have hind : ∀ a b : Int, readCell src a b = if blinkerV a b then 1 else 0 := by
    intro a b
    unfold readCell
    by_cases hab : inBounds src a b
    · rw [if_pos hab]
      have hiff := hc a b hab
      rw [getCell_inBounds hab] at hiff
      by_cases hz : src.origin a b = 0
      · rw [if_pos hz]
        rw [if_pos hz] at hiff
        rw [if_neg (fun hB => absurd (hiff.mpr hB) (by decide))]
      · rw [if_neg hz]
        rw [if_neg hz] at hiff
        rw [if_pos (hiff.mp rfl)]
    · rw [if_neg hab, if_neg (by rw [hr]; decide), if_pos hr]
      refine (if_neg fun hB => ?_).symm
      obtain ⟨ha, hb⟩ := hB
      exact hab ⟨by omega, by omega, by omega, by omega⟩
  intro x y hin
  obtain ⟨h1, h2, h3, h4⟩ := hin
  unfold stepOn neighborTotal neighborCoords
  simp only [hind, List.map_cons, List.map_nil, List.sum_cons, List.sum_nil,
    add_zero]
  unfold blinkerV blinkerH
  split_ifs <;> omega

set_option maxHeartbeats 3000000 in
theorem stepOn_of_blinkerH {src : Grid}
    (hr : src.outOfBoundsRule = GOL__OOBR__ALL_OFF)
    (hW : 3 ≤ src.gridSizeX) (hH : 3 ≤ src.gridSizeY)
    (hc : ∀ a b : Int, inBounds src a b →
      (getCell src a b = some GOL__CELL_STATE__ON ↔ blinkerH a b)) :
    ∀ x y : Int, inBounds src x y → (stepOn src x y ↔ blinkerV x y) := by
  have hind : ∀ a b : Int, readCell src a b = if blinkerH a b then 1 else 0 := by
    intro a b
    unfold readCell
    by_cases hab : inBounds src a b
    · rw [if_pos hab]
      have hiff := hc a b hab
      rw [getCell_inBounds hab] at hiff
      by_cases hz : src.origin a b = 0
      · rw [if_pos hz]
        rw [if_pos hz] at hiff
        rw [if_neg (fun hB => absurd (hiff.mpr hB) (by decide))]
      · rw [if_neg hz]
        rw [if_neg hz] at hiff
        rw [if_pos (hiff.mp rfl)]
    · rw [if_neg hab, if_neg (by rw [hr]; decide), if_pos hr]
      refine (if_neg fun hB => ?_).symm
      obtain ⟨ha, hb⟩ := hB
      exact hab ⟨by omega, by omega, by omega, by omega⟩
  intro x y hin
  obtain ⟨h1, h2, h3, h4⟩ := hin
  unfold stepOn neighborTotal neighborCoords
  simp only [hind, List.map_cons, List.map_nil, List.sum_cons, List.sum_nil,
    add_zero]
  unfold blinkerV blinkerH
  split_ifs <;> omega

/-- One `iterateGame` step on a game whose source content makes `stepOn`
coincide with a predicate `P`: afterwards the current grid reads On
exactly on `P`, and all the well-formedness facts carry over. -/
theorem iterate_exact (game : Game)
    (hX : (otherGrid game).gridSizeX = (currentGrid game).gridSizeX)
    (hY : (otherGrid game).gridSizeY = (currentGrid game).gridSizeY)
    (hR : (otherGrid game).outOfBoundsRule = (currentGrid game).outOfBoundsRule)
    (hv : validRule (currentGrid game)) (P : Int → Int → Prop)
    (hstep : ∀ x y : Int, inBounds (currentGrid game) x y →
      (stepOn (currentGrid game) x y ↔ P x y)) :
    ∃ game', iterateGame game = some game' ∧
      (otherGrid game').gridSizeX = (currentGrid game').gridSizeX ∧
      (otherGrid game').gridSizeY = (currentGrid game').gridSizeY ∧
      (otherGrid game').outOfBoundsRule = (currentGrid game').outOfBoundsRule ∧
      (currentGrid game').gridSizeX = (currentGrid game).gridSizeX ∧
      (currentGrid game').gridSizeY = (currentGrid game).gridSizeY ∧
      (currentGrid game').outOfBoundsRule = (currentGrid game).outOfBoundsRule ∧
      ∀ x y : Int, inBounds (currentGrid game') x y →
        (getCell (currentGrid game') x y = some GOL__CELL_STATE__ON ↔ P x y) := by
  obtain ⟨game', hg, hflip, hother, h1, h2, h3, horig⟩ := iterateGame_eq hX hY hv
  refine ⟨game', hg, ?_, ?_, ?_, ?_, ?_, ?_, fun x y hin => ?_⟩
  · rw [hother, h1, hX]
  · rw [hother, h2, hY]
  · rw [hother, h3, hR]
  · rw [h1, hX]
  · rw [h2, hY]
  · rw [h3, hR]
  · obtain ⟨a, b, c, d⟩ := hin
    have c2 : x < (currentGrid game).gridSizeX := by rw [h1, hX] at c; exact c
    have d2 : y < (currentGrid game).gridSizeY := by rw [h2, hY] at d; exact d
    have hinsrc : inBounds (currentGrid game) x y := ⟨a, b, c2, d2⟩
    have hiff := (horig x y).1 hinsrc
    rw [hstep x y hinsrc] at hiff
    by_cases hz : (currentGrid game').origin x y = 0
    · rw [getCell_inBounds ⟨a, b, c, d⟩, if_pos hz]
      exact ⟨fun hcon => absurd (Option.some.inj hcon) (by decide),
        fun hP => absurd hz (by simpa using hiff.mpr hP)⟩
    · rw [getCell_inBounds ⟨a, b, c, d⟩, if_neg hz]
      exact ⟨fun _ => hiff.mp hz, fun _ => rfl⟩

/-- C8: on a non-toroidal (AllOff) game at least 3 wide and 3 tall whose
current grid holds exactly the three On cells `{(1,0), (1,1), (1,2)}`,
one step yields exactly `{(0,1), (1,1), (2,1)}` and a second step yields
exactly `{(1,0), (1,1), (1,2)}` again: the period-2 blinker. -/
theorem claim_C8_blinker (game : Game)
    (hX : (otherGrid game).gridSizeX = (currentGrid game).gridSizeX)
    (hY : (otherGrid game).gridSizeY = (currentGrid game).gridSizeY)
    (hR : (otherGrid game).outOfBoundsRule = (currentGrid game).outOfBoundsRule)
    (hr : (currentGrid game).outOfBoundsRule = GOL__OOBR__ALL_OFF)
    (hW : 3 ≤ (currentGrid game).gridSizeX)
    (hH : 3 ≤ (currentGrid game).gridSizeY)
    (hsrc : ∀ x y : Int, inBounds (currentGrid game) x y →
      (getCell (currentGrid game) x y = some GOL__CELL_STATE__ON ↔ blinkerV x y)) :
    ∃ game', iterateGame game = some game' ∧
      (currentGrid game').gridSizeX = (currentGrid game).gridSizeX ∧
      (currentGrid game').gridSizeY = (currentGrid game).gridSizeY ∧
      (∀ x y : Int, inBounds (currentGrid game') x y →
        (getCell (currentGrid game') x y = some GOL__CELL_STATE__ON ↔
          blinkerH x y)) ∧
      ∃ game2, iterateGame game' = some game2 ∧
        (currentGrid game2).gridSizeX = (currentGrid game).gridSizeX ∧
        (currentGrid game2).gridSizeY = (currentGrid game).gridSizeY ∧
        ∀ x y : Int, inBounds (currentGrid game2) x y →
          (getCell (currentGrid game2) x y = some GOL__CELL_STATE__ON ↔
            blinkerV x y) := by
  have hv : validRule (currentGrid game) := Or.inl hr
  obtain ⟨game', hg, hoX, hoY, hoR, hsX, hsY, hsR, hcont⟩ :=
    iterate_exact game hX hY hR hv blinkerH (stepOn_of_blinkerV hr hW hH hsrc)
  have hr2 : (currentGrid game').outOfBoundsRule = GOL__OOBR__ALL_OFF := by
    rw [hsR]; exact hr
  obtain ⟨game2, hg2, _, _, _, hsX2, hsY2, hsR2, hcont2⟩ :=
    iterate_exact game' hoX hoY hoR (Or.inl hr2) blinkerV
      (stepOn_of_blinkerH hr2 (by rw [hsX]; exact hW) (by rw [hsY]; exact hH)
        hcont)
  exact ⟨game', hg, hsX, hsY, hcont, game2, hg2, by rw [hsX2, hsX],
    by rw [hsY2, hsY], hcont2⟩

/-- Concrete 3 × 3 AllOff game whose grid A holds exactly the blinker
`{(1,0), (1,1), (1,2)}`, for the C8 witness. -/
def gameC8 : Game :=
  ⟨⟨fun a b => if blinkerV a b then 1 else 0, 3, 3, 3, 3, GOL__OOBR__ALL_OFF⟩,
    ⟨fun _ _ => 0, 3, 3, 3, 3, GOL__OOBR__ALL_OFF⟩, true⟩

theorem claim_C8_blinker_witness :
    (iterateGame gameC8).map (fun gm => getCell (currentGrid gm) 0 1)
      = some (some GOL__CELL_STATE__ON) := by
  obtain ⟨game', hg, hsX, hsY, hcont, game2, hg2, hsX2, hsY2, hcont2⟩ :=
    claim_C8_blinker gameC8 rfl rfl rfl rfl (by decide) (by decide)
      (fun x y hin => by
        rw [getCell_inBounds hin,
          show (currentGrid gameC8).origin x y
            = (if blinkerV x y then (1 : Int) else 0) from rfl]
        by_cases hB : blinkerV x y
        · rw [if_pos hB]
          exact iff_of_true (by decide) hB
        · rw [if_neg hB]
          exact iff_of_false (by decide) hB)
  rw [hg, Option.map_some',
    (hcont 0 1 ⟨by decide, by decide, by rw [hsX]; decide, by rw [hsY]; decide⟩).mpr
      ⟨rfl, Or.inl rfl⟩]

end GOL
